import Mathlib

/-!
Verification of the memory-hall 3D view component (`DetailView.js`).

The definitions below are a shallow embedding of the geometry
constants, boundary test, camera movement step, orb media-resolution policy,
slideshow probing loop, crossfade timer discipline, teardown paths and
canvas draw sequences.  JavaScript numbers are modelled as rationals (ℚ)
except where trigonometry is involved, which is modelled over ℝ.
-/

namespace MemoryHall

/-! ## Hall layout constants (createTShapedFloor, DetailView.js lines 170-181) -/

def mainCorridorWidth : ℚ := 16

def mainCorridorLength : ℚ := 80

/-- T-bar width as used by `createTShapedFloor` (line 173). -/
def tBarWidthBuild : ℚ := 70

def tBarLength : ℚ := 12

def entranceExtension : ℚ := 35

def entranceBackZ : ℚ := 10 + entranceExtension

def entranceZ : ℚ := 10

def junctionZ : ℚ := -mainCorridorLength + 10

def tBarBackZ : ℚ := junctionZ - tBarLength

/-! ## Floor rectangles built by createTShapedFloor (lines 196-230)

Each floor piece is a `PlaneGeometry(width, length)` rotated flat and
positioned at `(0, 0.1, centerZ)`, so its footprint is
`x ∈ [-width/2, width/2]`, `z ∈ [centerZ - length/2, centerZ + length/2]`. -/

structure FloorRect where
  width : ℚ
  length : ℚ
  centerZ : ℚ
deriving DecidableEq

/-- Entrance extension floor (lines 200-208). -/
def entranceFloorPiece : FloorRect :=
  { width := mainCorridorWidth, length := entranceExtension
    centerZ := (entranceBackZ + entranceZ) / 2 }

/-- Main corridor floor (lines 211-219). -/
def mainFloorPiece : FloorRect :=
  { width := mainCorridorWidth, length := mainCorridorLength
    centerZ := (entranceZ + junctionZ) / 2 }

/-- T-bar floor (lines 222-230). -/
def tBarFloorPiece : FloorRect :=
  { width := tBarWidthBuild, length := tBarLength
    centerZ := junctionZ - tBarLength / 2 }

def floorPieces : List FloorRect := [entranceFloorPiece, mainFloorPiece, tBarFloorPiece]

def inFloorRect (r : FloorRect) (x z : ℚ) : Bool :=
  decide (-(r.width / 2) ≤ x ∧ x ≤ r.width / 2 ∧
    r.centerZ - r.length / 2 ≤ z ∧ z ≤ r.centerZ + r.length / 2)

/-- Membership in the union of the three visible floor rectangles. -/
def inFloorUnion (x z : ℚ) : Bool :=
  floorPieces.any (fun r => inFloorRect r x z)

/-! ## Movement boundary test (isInsideTShapedFloor, lines 3703-3733) -/

/-- Translation of `isInsideTShapedFloor(x, z, mainWidth, mainLength,
tBarWidth, tBarLength, entranceExtension = 35)`. -/
def isInsideTShapedFloor (x z mainWidth mainLength tBarW tBarL entranceExt : ℚ) : Bool :=
  let mainHalfWidth := mainWidth / 2
  let entBackZ := 10 + entranceExt
  let entZ : ℚ := 10
  let juncZ := -mainLength + 10
  let tBarHalfWidth := tBarW / 2
  let tBackZ := juncZ - tBarL
  if entZ ≤ z ∧ z ≤ entBackZ ∧ -mainHalfWidth ≤ x ∧ x ≤ mainHalfWidth then true
  else if juncZ ≤ z ∧ z ≤ entZ ∧ -mainHalfWidth ≤ x ∧ x ≤ mainHalfWidth then true
  else if tBackZ ≤ z ∧ z ≤ juncZ ∧ -tBarHalfWidth ≤ x ∧ x ≤ tBarHalfWidth then true
  else false

/-- Edge margin used by `updateCamera` (line 3780). -/
def margin : ℚ := 1 / 2

/-- T-bar width as used by the collision constants of `updateCamera` (line 3778). -/
def tBarWidthMove : ℚ := 60

/-- The exact boundary test `updateCamera` applies to a candidate position
(lines 3776-3783): `isInsideTShapedFloor(x, z, 16 - 2*margin, 80,
60 - 2*margin, 12)` with the default entrance extension 35. -/
def movementBoundaryTest (x z : ℚ) : Bool :=
  isInsideTShapedFloor x z (mainCorridorWidth - margin * 2) mainCorridorLength
    (tBarWidthMove - margin * 2) tBarLength 35

/-- C1 counterexample: the point (30, -75) lies on the visible T-bar floor
(width 70) but the movement test (T-bar width 60 minus margin) rejects it,
so the two regions are not equal. -/
theorem movement_floor_mismatch :
    inFloorUnion 30 (-75) = true ∧ movementBoundaryTest 30 (-75) = false := by
  norm_num [inFloorUnion, floorPieces, inFloorRect, entranceFloorPiece,
    mainFloorPiece, tBarFloorPiece, movementBoundaryTest, isInsideTShapedFloor,
    mainCorridorWidth, mainCorridorLength, tBarWidthBuild, tBarWidthMove,
    tBarLength, entranceExtension, entranceBackZ, entranceZ, junctionZ,
    tBarBackZ, margin]

/-- C1 (amended): the movement-boundary region is contained in the union of
the three visible floor rectangles, but not conversely: acceptance implies
floor membership, while the converse fails because the movement constants
shrink the corridor by the margin and use T-bar width 60 instead of 70. -/
theorem movement_inside_floor_union (x z : ℚ)
    (h : movementBoundaryTest x z = true) : inFloorUnion x z = true := by
  unfold movementBoundaryTest isInsideTShapedFloor at h
  simp only [mainCorridorWidth, mainCorridorLength, tBarWidthMove, tBarLength, margin] at h
  unfold inFloorUnion floorPieces inFloorRect
  unfold entranceFloorPiece mainFloorPiece tBarFloorPiece
  simp only [mainCorridorWidth, mainCorridorLength, tBarWidthBuild, tBarLength,
    entranceExtension, entranceBackZ, entranceZ, junctionZ, tBarBackZ,
    List.any_cons, List.any_nil, Bool.or_false, Bool.or_eq_true,
    decide_eq_true_eq] at h ⊢
  split_ifs at h with h1 h2 h3
  · obtain ⟨hz1, hz2, hx1, hx2⟩ := h1
    left
    norm_num at hz1 hz2 hx1 hx2 ⊢
    refine ⟨by linarith, by linarith, by linarith, by linarith⟩
  · obtain ⟨hz1, hz2, hx1, hx2⟩ := h2
    right; left
    norm_num at hz1 hz2 hx1 hx2 ⊢
    refine ⟨by linarith, by linarith, by linarith, by linarith⟩
  · obtain ⟨hz1, hz2, hx1, hx2⟩ := h3
    right; right
    norm_num at hz1 hz2 hx1 hx2 ⊢
    refine ⟨by linarith, by linarith, by linarith, by linarith⟩

/-- Witness for `movement_inside_floor_union` at the origin of the corridor. -/
theorem movement_inside_floor_union_witness :
    movementBoundaryTest 0 0 = true ∧ inFloorUnion 0 0 = true := by
  have h : movementBoundaryTest 0 0 = true := by
    norm_num [movementBoundaryTest, isInsideTShapedFloor, mainCorridorWidth,
      mainCorridorLength, tBarWidthMove, tBarLength, margin]
  exact ⟨h, movement_inside_floor_union 0 0 h⟩

/-! ## Camera movement step (updateCamera, lines 3744-3806) -/

/-- Friction factor applied to the whole velocity every frame (line 3765). -/
def frictionFactor : ℚ := 92 / 100

/-- Velocity component after adding the key-direction increment
(lines 3760-3761) and applying friction (line 3765). -/
def velAfterFriction (v inc : ℚ) : ℚ := (v + inc) * frictionFactor

/-- Candidate coordinate `prev + velocity * deltaTime` (lines 3772-3773). -/
def candidate (p v inc dt : ℚ) : ℚ := p + velAfterFriction v inc * dt

/-- The horizontal position/velocity update of `updateCamera`
(lines 3744-3803), parameterized by the key-direction increment
`(incX, incZ)` produced by the input block — `(0, 0)` when no direction key
is active, since that block is skipped (line 3752).  Returns
`((newPosX, newPosZ), (newVelX, newVelZ))` following the commit /
X-only slide / Z-only slide / full-stop branches (lines 3783-3803). -/
def updateCameraMove (incX incZ px pz vx vz dt : ℚ) : (ℚ × ℚ) × (ℚ × ℚ) :=
  let vx1 := velAfterFriction vx incX
  let vz1 := velAfterFriction vz incZ
  let newX := candidate px vx incX dt
  let newZ := candidate pz vz incZ dt
  if movementBoundaryTest newX newZ then ((newX, newZ), (vx1, vz1))
  else if movementBoundaryTest newX pz then ((newX, pz), (vx1, 0))
  else if movementBoundaryTest px newZ then ((px, newZ), (0, vz1))
  else ((px, pz), (0, 0))

/-- C6: when the candidate position fails the boundary test, the X-only
retry passing commits the X displacement and zeroes the Z velocity; the
Z-only retry passing (with X blocked) commits the Z displacement and zeroes
the X velocity; if neither retry passes the whole velocity is zeroed and
the position is unchanged.  The final conjuncts record that the committed
axis really is displaced whenever its post-friction velocity is nonzero. -/
theorem wall_slide (incX incZ px pz vx vz dt : ℚ)
    (hfull : movementBoundaryTest (candidate px vx incX dt)
      (candidate pz vz incZ dt) = false) :
    (movementBoundaryTest (candidate px vx incX dt) pz = true →
      updateCameraMove incX incZ px pz vx vz dt =
        ((candidate px vx incX dt, pz), (velAfterFriction vx incX, 0)))
    ∧ (movementBoundaryTest (candidate px vx incX dt) pz = false →
       movementBoundaryTest px (candidate pz vz incZ dt) = true →
      updateCameraMove incX incZ px pz vx vz dt =
        ((px, candidate pz vz incZ dt), (0, velAfterFriction vz incZ)))
    ∧ (movementBoundaryTest (candidate px vx incX dt) pz = false →
       movementBoundaryTest px (candidate pz vz incZ dt) = false →
      updateCameraMove incX incZ px pz vx vz dt = ((px, pz), (0, 0)))
    ∧ (velAfterFriction vx incX * dt ≠ 0 → candidate px vx incX dt ≠ px)
    ∧ (velAfterFriction vz incZ * dt ≠ 0 → candidate pz vz incZ dt ≠ pz) := by
  refine ⟨?_, ?_, ?_, ?_, ?_⟩
  · intro hx
    simp [updateCameraMove, hfull, hx]
  · intro hx hz
    simp [updateCameraMove, hfull, hx, hz]
  · intro hx hz
    simp [updateCameraMove, hfull, hx, hz]
  · intro h
    simpa [candidate] using h
  · intro h
    simpa [candidate] using h

/-- Witness for `wall_slide`: at position (7, 0) with a diagonal velocity
the candidate (8, 5) leaves the corridor, the X-only retry is blocked and
the Z-only retry passes, so the camera slides along Z with X velocity
zeroed. -/
theorem wall_slide_witness :
    movementBoundaryTest (candidate 7 (25/23) 0 1) (candidate 0 (125/23) 0 1) = false ∧
    updateCameraMove 0 0 7 0 (25/23) (125/23) 1 =
      ((7, candidate 0 (125/23) 0 1), (0, velAfterFriction (125/23) 0)) := by
  have hfull : movementBoundaryTest (candidate 7 (25/23) 0 1)
      (candidate 0 (125/23) 0 1) = false := by
    norm_num [candidate, velAfterFriction, frictionFactor, movementBoundaryTest,
      isInsideTShapedFloor, mainCorridorWidth, mainCorridorLength,
      tBarWidthMove, tBarLength, margin]
  have hx : movementBoundaryTest (candidate 7 (25/23) 0 1) 0 = false := by
    norm_num [candidate, velAfterFriction, frictionFactor, movementBoundaryTest,
      isInsideTShapedFloor, mainCorridorWidth, mainCorridorLength,
      tBarWidthMove, tBarLength, margin]
  have hz : movementBoundaryTest 7 (candidate 0 (125/23) 0 1) = true := by
    norm_num [candidate, velAfterFriction, frictionFactor, movementBoundaryTest,
      isInsideTShapedFloor, mainCorridorWidth, mainCorridorLength,
      tBarWidthMove, tBarLength, margin]
  exact ⟨hfull, (wall_slide 0 0 7 0 (25/23) (125/23) 1 hfull).2.1 hx hz⟩

/-! ## Friction decay with zero input (C7) -/

/-- One frame of `updateCamera` with all four direction keys inactive:
the increment block (lines 3747-3762) contributes nothing, so the step is
`updateCameraMove` with zero increments. -/
def stepNoInput (s : (ℚ × ℚ) × (ℚ × ℚ)) (dt : ℚ) : (ℚ × ℚ) × (ℚ × ℚ) :=
  updateCameraMove 0 0 s.1.1 s.1.2 s.2.1 s.2.2 dt

/-- A run of consecutive zero-input frames with the given delta times. -/
def runNoInput (dts : List ℚ) (s : (ℚ × ℚ) × (ℚ × ℚ)) : (ℚ × ℚ) × (ℚ × ℚ) :=
  dts.foldl stepNoInput s

/-- Euclidean magnitude of a velocity vector, as a real number. -/
noncomputable def velMag (v : ℚ × ℚ) : ℝ :=
  Real.sqrt ((v.1 : ℝ) ^ 2 + (v.2 : ℝ) ^ 2)

lemma stepNoInput_velSq_le (s : (ℚ × ℚ) × (ℚ × ℚ)) (dt : ℚ) :
    ((stepNoInput s dt).2.1) ^ 2 + ((stepNoInput s dt).2.2) ^ 2 ≤
      (92/100) ^ 2 * ((s.2.1) ^ 2 + (s.2.2) ^ 2) := by
  rcases s with ⟨⟨px, pz⟩, ⟨vx, vz⟩⟩
  simp only [stepNoInput, updateCameraMove, velAfterFriction, frictionFactor]
  split_ifs <;> simp <;> nlinarith [sq_nonneg vx, sq_nonneg vz]

lemma velMag_nonneg (v : ℚ × ℚ) : 0 ≤ velMag v := Real.sqrt_nonneg _

lemma stepNoInput_velMag_le (s : (ℚ × ℚ) × (ℚ × ℚ)) (dt : ℚ) :
    velMag (stepNoInput s dt).2 ≤ (92/100 : ℝ) * velMag s.2 := by
  have h := stepNoInput_velSq_le s dt
  have hR : (((stepNoInput s dt).2.1 : ℝ)) ^ 2 + (((stepNoInput s dt).2.2 : ℝ)) ^ 2 ≤
      (92/100 : ℝ) ^ 2 * (((s.2.1 : ℝ)) ^ 2 + ((s.2.2 : ℝ)) ^ 2) := by
    have hc := (Rat.cast_le (K := ℝ)).mpr h
    push_cast at hc
    linarith
  calc velMag (stepNoInput s dt).2
      ≤ Real.sqrt ((92/100 : ℝ) ^ 2 * (((s.2.1 : ℝ)) ^ 2 + ((s.2.2 : ℝ)) ^ 2)) :=
        Real.sqrt_le_sqrt hR
    _ = (92/100 : ℝ) * velMag s.2 := by
        rw [Real.sqrt_mul (by positivity), Real.sqrt_sq (by norm_num)]
        rfl

lemma runNoInput_velMag_le (dts : List ℚ) (s : (ℚ × ℚ) × (ℚ × ℚ)) :
    velMag (runNoInput dts s).2 ≤ (92/100 : ℝ) ^ dts.length * velMag s.2 := by
  induction dts generalizing s with
  | nil => simp [runNoInput]
  | cons dt dts ih =>
      have h1 : runNoInput (dt :: dts) s = runNoInput dts (stepNoInput s dt) := rfl
      rw [h1]
      calc velMag (runNoInput dts (stepNoInput s dt)).2
          ≤ (92/100 : ℝ) ^ dts.length * velMag (stepNoInput s dt).2 := ih _
        _ ≤ (92/100 : ℝ) ^ dts.length * ((92/100 : ℝ) * velMag s.2) := by
            exact mul_le_mul_of_nonneg_left (stepNoInput_velMag_le s dt)
              (by positivity)
        _ = (92/100 : ℝ) ^ (dt :: dts).length * velMag s.2 := by
            rw [List.length_cons, pow_succ]
            ring

/-- C7: with zero input, an in-bounds frame multiplies the velocity exactly
by 0.92, a nonzero velocity magnitude strictly decreases on every frame
(collision branches only zero components), and after 60 zero-input frames
the magnitude is at most `0.92 ^ 60 < 1%` of its initial value. -/
theorem friction_decay :
    (∀ (s : (ℚ × ℚ) × (ℚ × ℚ)) (dt : ℚ),
      movementBoundaryTest (candidate s.1.1 s.2.1 0 dt) (candidate s.1.2 s.2.2 0 dt)
          = true →
        (stepNoInput s dt).2 = (frictionFactor * s.2.1, frictionFactor * s.2.2))
    ∧ (∀ (s : (ℚ × ℚ) × (ℚ × ℚ)) (dt : ℚ), s.2 ≠ (0, 0) →
        velMag (stepNoInput s dt).2 < velMag s.2)
    ∧ (∀ (dts : List ℚ) (s : (ℚ × ℚ) × (ℚ × ℚ)), dts.length = 60 →
        velMag (runNoInput dts s).2 ≤ (92/100 : ℝ) ^ 60 * velMag s.2)
    ∧ ((92/100 : ℝ) ^ 60 < 1 / 100) := by
  refine ⟨?_, ?_, ?_, ?_⟩
  · rintro ⟨⟨px, pz⟩, ⟨vx, vz⟩⟩ dt h
    simp only [stepNoInput, updateCameraMove]
    rw [if_pos h]
    simp [velAfterFriction, frictionFactor, mul_comm]
  · intro s dt hne
    have hpos : 0 < velMag s.2 := by
      rcases s with ⟨p, ⟨vx, vz⟩⟩
      have : vx ≠ 0 ∨ vz ≠ 0 := by
        by_contra hc
        push_neg at hc
        exact hne (by simp [hc.1, hc.2])
      have hsq : (0 : ℝ) < (vx : ℝ) ^ 2 + (vz : ℝ) ^ 2 := by
        rcases this with h | h
        · have : (vx : ℝ) ≠ 0 := by exact_mod_cast h
          nlinarith [sq_nonneg (vz : ℝ), sq_nonneg (vx : ℝ), sq_abs (vx : ℝ),
            abs_pos.mpr this]
        · have : (vz : ℝ) ≠ 0 := by exact_mod_cast h
          nlinarith [sq_nonneg (vx : ℝ), sq_nonneg (vz : ℝ), sq_abs (vz : ℝ),
            abs_pos.mpr this]
      exact Real.sqrt_pos.mpr hsq
    calc velMag (stepNoInput s dt).2 ≤ (92/100 : ℝ) * velMag s.2 :=
          stepNoInput_velMag_le s dt
      _ < 1 * velMag s.2 := by
          exact mul_lt_mul_of_pos_right (by norm_num) hpos
      _ = velMag s.2 := one_mul _
  · intro dts s h
    have := runNoInput_velMag_le dts s
    rwa [h] at this
  · norm_num

/-- Witness for `friction_decay`: a single frame from rest position (0,0)
with velocity (1,0) and dt = 1 stays in bounds, so the velocity becomes
exactly (0.92, 0); its magnitude strictly decreases; 60 unit frames obey
the `0.92 ^ 60` bound. -/
theorem friction_decay_witness :
    (stepNoInput ((0, 0), (1, 0)) 1).2 = (frictionFactor * 1, frictionFactor * 0) ∧
    velMag (stepNoInput ((0, 0), (1, 0)) 1).2 < velMag ((1 : ℚ), (0 : ℚ)) ∧
    velMag (runNoInput (List.replicate 60 (1 : ℚ)) ((0, 0), (1, 0))).2 ≤
      (92/100 : ℝ) ^ 60 * velMag ((1 : ℚ), (0 : ℚ)) := by
  refine ⟨?_, ?_, ?_⟩
  · refine friction_decay.1 ((0, 0), (1, 0)) 1 ?_
    norm_num [candidate, velAfterFriction, frictionFactor, movementBoundaryTest,
      isInsideTShapedFloor, mainCorridorWidth, mainCorridorLength,
      tBarWidthMove, tBarLength, margin]
  · exact friction_decay.2.1 ((0, 0), (1, 0)) 1 (by norm_num [Prod.ext_iff])
  · exact friction_decay.2.2.1 (List.replicate 60 (1 : ℚ)) ((0, 0), (1, 0))
      (by simp)

/-! ## Key-direction increment (updateCamera, lines 3744-3762)

The source composes a raw direction from the four key booleans, normalizes
it, applies the camera quaternion (rotation order YXZ with roll 0, so
yaw about Y composed with pitch about X), zeroes the vertical component,
and adds `component * moveSpeed * deltaTime` to the velocity. -/

structure Keys where
  forward : Bool
  backward : Bool
  left : Bool
  right : Bool

/-- Raw direction vector from the key booleans (lines 3747-3750), as
`(x, y, z)`. -/
def rawDir (k : Keys) : ℝ × ℝ × ℝ :=
  ((if k.left then -1 else 0) + (if k.right then 1 else 0), 0,
   (if k.forward then -1 else 0) + (if k.backward then 1 else 0))

/-- Vector length, as in `direction.length()` (line 3752). -/
noncomputable def vlen (v : ℝ × ℝ × ℝ) : ℝ :=
  Real.sqrt (v.1 ^ 2 + v.2.1 ^ 2 + v.2.2 ^ 2)

/-- Normalized direction (line 3753). -/
noncomputable def normDir (k : Keys) : ℝ × ℝ × ℝ :=
  ((rawDir k).1 / vlen (rawDir k), (rawDir k).2.1 / vlen (rawDir k),
   (rawDir k).2.2 / vlen (rawDir k))

/-- Rotation about the X axis by the pitch angle. -/
noncomputable def rotX (θ : ℝ) (v : ℝ × ℝ × ℝ) : ℝ × ℝ × ℝ :=
  (v.1, Real.cos θ * v.2.1 - Real.sin θ * v.2.2,
   Real.sin θ * v.2.1 + Real.cos θ * v.2.2)

/-- Rotation about the Y axis by the yaw angle. -/
noncomputable def rotY (θ : ℝ) (v : ℝ × ℝ × ℝ) : ℝ × ℝ × ℝ :=
  (Real.cos θ * v.1 + Real.sin θ * v.2.2, v.2.1,
   -Real.sin θ * v.1 + Real.cos θ * v.2.2)

/-- Translation of `direction.applyQuaternion(this.camera.quaternion)`
(line 3756): the
camera quaternion is built from Euler angles in YXZ order with roll 0
(lines 3740-3742), i.e. the pitch rotation followed by the yaw rotation. -/
noncomputable def applyCameraQuat (yaw pitch : ℝ) (v : ℝ × ℝ × ℝ) : ℝ × ℝ × ℝ :=
  rotY yaw (rotX pitch v)

/-- The `(x, z)` increment added to the camera velocity on a frame
(lines 3752-3762).  The source zeroes `direction.y` after the rotation
(line 3757), which does not change the x/z components used here. -/
noncomputable def moveIncrement (k : Keys) (yaw pitch moveSpeed dt : ℝ) : ℝ × ℝ :=
  if vlen (rawDir k) > 0 then
    ((applyCameraQuat yaw pitch (normDir k)).1 * moveSpeed * dt,
     (applyCameraQuat yaw pitch (normDir k)).2.2 * moveSpeed * dt)
  else (0, 0)

def forwardOnly : Keys := ⟨true, false, false, false⟩

/-- C5 counterexample: looking straight down (pitch = π/2) and pressing
forward, the velocity increment is the zero vector, so its horizontal
magnitude is 0 and not `moveSpeed * deltaTime = 1`: the magnitude of the
increment does depend on the pitch angle. -/
theorem move_increment_pitch_dependent :
    moveIncrement forwardOnly 0 (Real.pi / 2) 1 1 = (0, 0) ∧
    Real.sqrt ((moveIncrement forwardOnly 0 (Real.pi / 2) 1 1).1 ^ 2 +
      (moveIncrement forwardOnly 0 (Real.pi / 2) 1 1).2 ^ 2) ≠ 1 * 1 := by
  have hlen : vlen (rawDir forwardOnly) = 1 := by
    simp [vlen, rawDir, forwardOnly]
  have hinc : moveIncrement forwardOnly 0 (Real.pi / 2) 1 1 = (0, 0) := by
    simp [moveIncrement, hlen, applyCameraQuat, rotX, rotY, normDir, rawDir,
      forwardOnly, Real.cos_pi_div_two, Real.sin_pi_div_two]
  refine ⟨hinc, ?_⟩
  rw [hinc]
  norm_num [Real.sqrt_eq_zero]

/-- C5 (amended): when at least one direction key is active, the
normalized key direction is a horizontal unit vector; the squared
horizontal magnitude of the velocity increment equals
`(moveSpeed * dt)^2 * (nx^2 + cos(pitch)^2 * nz^2)` — the source applies
the full camera rotation (pitch included) and then discards the vertical
component without renormalizing — and is therefore at most
`(moveSpeed * dt)^2`, with the pitch-dependent factor shrinking the
forward/backward contribution. -/
theorem move_increment_characterization (k : Keys) (yaw pitch ms dt : ℝ)
    (h : vlen (rawDir k) > 0) :
    ((normDir k).1 ^ 2 + (normDir k).2.2 ^ 2 = 1) ∧
    ((moveIncrement k yaw pitch ms dt).1 ^ 2 +
        (moveIncrement k yaw pitch ms dt).2 ^ 2 =
      (ms * dt) ^ 2 *
        ((normDir k).1 ^ 2 + (Real.cos pitch) ^ 2 * (normDir k).2.2 ^ 2)) ∧
    ((moveIncrement k yaw pitch ms dt).1 ^ 2 +
        (moveIncrement k yaw pitch ms dt).2 ^ 2 ≤ (ms * dt) ^ 2) := by
  have hy : (rawDir k).2.1 = 0 := rfl
  have hlen2 : vlen (rawDir k) ^ 2 = (rawDir k).1 ^ 2 + (rawDir k).2.2 ^ 2 := by
    rw [vlen, Real.sq_sqrt (by positivity), hy]
    ring
  have hne : vlen (rawDir k) ≠ 0 := ne_of_gt h
  have hunit : (normDir k).1 ^ 2 + (normDir k).2.2 ^ 2 = 1 := by
    simp only [normDir]
    rw [div_pow, div_pow, div_add_div_same, hlen2, div_self]
    intro hc
    have hv2 : vlen (rawDir k) ^ 2 = 0 := by rw [hlen2]; exact hc
    nlinarith [h, hv2]
  refine ⟨hunit, ?_, ?_⟩
  · simp only [moveIncrement, if_pos h, applyCameraQuat, rotX, rotY]
    have hy2 : (normDir k).2.1 = 0 := by simp [normDir, hy]
    rw [hy2]
    have hsc : Real.sin pitch ^ 2 + Real.cos pitch ^ 2 = 1 :=
      Real.sin_sq_add_cos_sq pitch
    have hsy : Real.sin yaw ^ 2 + Real.cos yaw ^ 2 = 1 :=
      Real.sin_sq_add_cos_sq yaw
    nlinarith [hsc, hsy, sq_nonneg ((normDir k).1), sq_nonneg ((normDir k).2.2)]
  · have hcos : Real.cos pitch ^ 2 ≤ 1 := by
      nlinarith [Real.sin_sq_add_cos_sq pitch, sq_nonneg (Real.sin pitch)]
    have h2 := hunit
    have hmain : (moveIncrement k yaw pitch ms dt).1 ^ 2 +
        (moveIncrement k yaw pitch ms dt).2 ^ 2 =
        (ms * dt) ^ 2 *
          ((normDir k).1 ^ 2 + (Real.cos pitch) ^ 2 * (normDir k).2.2 ^ 2) := by
      simp only [moveIncrement, if_pos h, applyCameraQuat, rotX, rotY]
      have hy2 : (normDir k).2.1 = 0 := by simp [normDir, hy]
      rw [hy2]
      have hsc : Real.sin pitch ^ 2 + Real.cos pitch ^ 2 = 1 :=
        Real.sin_sq_add_cos_sq pitch
      have hsy : Real.sin yaw ^ 2 + Real.cos yaw ^ 2 = 1 :=
        Real.sin_sq_add_cos_sq yaw
      nlinarith [hsc, hsy, sq_nonneg ((normDir k).1), sq_nonneg ((normDir k).2.2)]
    have hfac : (normDir k).1 ^ 2 + Real.cos pitch ^ 2 * (normDir k).2.2 ^ 2 ≤ 1 := by
      nlinarith [mul_nonneg (by linarith [hcos] : (0:ℝ) ≤ 1 - Real.cos pitch ^ 2)
        (sq_nonneg ((normDir k).2.2)), h2]
    calc (moveIncrement k yaw pitch ms dt).1 ^ 2 +
          (moveIncrement k yaw pitch ms dt).2 ^ 2
        = (ms * dt) ^ 2 *
            ((normDir k).1 ^ 2 + (Real.cos pitch) ^ 2 * (normDir k).2.2 ^ 2) := hmain
      _ ≤ (ms * dt) ^ 2 * 1 := mul_le_mul_of_nonneg_left hfac (sq_nonneg _)
      _ = (ms * dt) ^ 2 := mul_one _

/-- Witness for `move_increment_characterization` with the forward key at
pitch 0: the hypotheses hold and the normalized direction is a horizontal
unit vector. -/
theorem move_increment_characterization_witness :
    vlen (rawDir forwardOnly) > 0 ∧
    ((normDir forwardOnly).1 ^ 2 + (normDir forwardOnly).2.2 ^ 2 = 1) := by
  have h : vlen (rawDir forwardOnly) > 0 := by
    simp [vlen, rawDir, forwardOnly]
  exact ⟨h, (move_increment_characterization forwardOnly 0 0 1 1 h).1⟩

/-! ## Slideshow image probing (loadSlideshowImages, lines 880-912) -/

/-- Maximum number of image probes, `const maxImages = 20` (line 884). -/
def maxImages : ℕ := 20

/-- The successive indices probed by the loop
`for (let i = 1; i <= maxImages; i++)` (line 906): 1, 2, ..., 20. -/
def probeIndices : List ℕ := (List.range maxImages).map (· + 1)

/-- The probe loop body (lines 906-909): each index is probed in order; a
successful load keeps the image and continues, the first failing index
breaks the loop. -/
def takeWhileAvail (avail : ℕ → Bool) : List ℕ → List ℕ
  | [] => []
  | i :: rest => if avail i then i :: takeWhileAvail avail rest else []

/-- Translation of `loadSlideshowImages`, with the image at index `i`
represented by `i`
and `avail i` standing for "the image file at index `i` loads". -/
def loadSlideshowImages (avail : ℕ → Bool) : List ℕ :=
  takeWhileAvail avail probeIndices

lemma takeWhileAvail_length_le (avail : ℕ → Bool) :
    ∀ l : List ℕ, (takeWhileAvail avail l).length ≤ l.length := by
  intro l
  induction l with
  | nil => simp [takeWhileAvail]
  | cons a t ih =>
      by_cases h : avail a = true
      · simp [takeWhileAvail, h]
        omega
      · simp [takeWhileAvail, h]

lemma takeWhileAvail_eq_take (avail : ℕ → Bool) :
    ∀ l : List ℕ,
      takeWhileAvail avail l = l.take (takeWhileAvail avail l).length := by
  intro l
  induction l with
  | nil => simp [takeWhileAvail]
  | cons a t ih =>
      by_cases h : avail a = true
      · simp only [takeWhileAvail, h, if_true, List.length_cons, List.take_succ_cons]
        exact congrArg (a :: ·) ih
      · simp [takeWhileAvail, h]

lemma takeWhileAvail_all (avail : ℕ → Bool) :
    ∀ (l : List ℕ) (x : ℕ), x ∈ takeWhileAvail avail l → avail x = true := by
  intro l
  induction l with
  | nil => simp [takeWhileAvail]
  | cons a t ih =>
      intro x hx
      by_cases h : avail a = true
      · simp only [takeWhileAvail, h, if_true, List.mem_cons] at hx
        rcases hx with rfl | hx
        · exact h
        · exact ih x hx
      · simp [takeWhileAvail, h] at hx

lemma takeWhileAvail_cons (avail : ℕ → Bool) (a : ℕ) (t : List ℕ) :
    takeWhileAvail avail (a :: t) =
      if avail a then a :: takeWhileAvail avail t else [] := rfl

lemma takeWhileAvail_stop (avail : ℕ → Bool) :
    ∀ l : List ℕ, (takeWhileAvail avail l).length < l.length →
      ∃ x, l.get? (takeWhileAvail avail l).length = some x ∧ avail x = false := by
  intro l
  induction l with
  | nil => simp [takeWhileAvail]
  | cons a t ih =>
      intro hlt
      by_cases h : avail a = true
      · rw [takeWhileAvail_cons, if_pos h] at hlt ⊢
        simp only [List.length_cons] at hlt ⊢
        simp only [List.get?_cons_succ]
        exact ih (by omega)
      · have hb : avail a = false := by simpa using h
        rw [takeWhileAvail_cons, if_neg (by simp [hb])] at hlt ⊢
        exact ⟨a, by simp, hb⟩

/-- C8: the slideshow probe visits indices 1, 2, 3, ... in order, stops at
the first index that fails to load, is bounded by the probe cap 20, and
returns exactly the consecutively loadable prefix; in particular with
images at indices 1-3 and none at 4 the resolved list has exactly 3
entries. -/
theorem slideshow_probe_chain (avail : ℕ → Bool) :
    ((loadSlideshowImages avail).length ≤ maxImages) ∧
    (loadSlideshowImages avail =
      (List.range (loadSlideshowImages avail).length).map (· + 1)) ∧
    (∀ k, k < (loadSlideshowImages avail).length → avail (k + 1) = true) ∧
    ((loadSlideshowImages avail).length < maxImages →
      avail ((loadSlideshowImages avail).length + 1) = false) ∧
    (avail 1 = true → avail 2 = true → avail 3 = true → avail 4 = false →
      (loadSlideshowImages avail).length = 3) := by
  have hlenle : (loadSlideshowImages avail).length ≤ maxImages := by
    have := takeWhileAvail_length_le avail probeIndices
    simpa [loadSlideshowImages, probeIndices] using this
  have htake := takeWhileAvail_eq_take avail probeIndices
  have hrange : loadSlideshowImages avail =
      (List.range (loadSlideshowImages avail).length).map (· + 1) := by
    conv_lhs => rw [loadSlideshowImages, htake]
    rw [show probeIndices = (List.range maxImages).map (· + 1) from rfl,
      ← List.map_take, List.take_range]
    congr 1
    congr 1
    exact Nat.min_eq_left hlenle
  refine ⟨hlenle, hrange, ?_, ?_, ?_⟩
  · intro k hk
    apply takeWhileAvail_all avail probeIndices
    show k + 1 ∈ loadSlideshowImages avail
    rw [hrange]
    simp only [List.mem_map, List.mem_range]
    exact ⟨k, hk, rfl⟩
  · intro hlt
    obtain ⟨x, hx, hfalse⟩ := takeWhileAvail_stop avail probeIndices
      (by simpa [loadSlideshowImages, probeIndices] using hlt)
    have hx' : probeIndices.get? (loadSlideshowImages avail).length = some x := hx
    have hget : probeIndices.get? (loadSlideshowImages avail).length =
        some ((loadSlideshowImages avail).length + 1) := by
      rw [show probeIndices = (List.range maxImages).map (· + 1) from rfl,
        List.get?_map, List.get?_range (by simpa [maxImages] using hlt)]
      rfl
    rw [hx'] at hget
    injection hget with hxeq
    rw [← hxeq]
    exact hfalse
  · intro h1 h2 h3 h4
    have hp : probeIndices =
        [1, 2, 3, 4, 5, 6, 7, 8, 9, 10, 11, 12, 13, 14, 15, 16, 17, 18, 19, 20] := by
      rfl
    rw [loadSlideshowImages, hp]
    simp [takeWhileAvail, h1, h2, h3, h4]

/-- Concrete availability: image files exist exactly at indices 1, 2, 3. -/
def availExample (i : ℕ) : Bool := decide (1 ≤ i ∧ i ≤ 3)

/-- Witness for `slideshow_probe_chain`: with images at 1-3 and none at 4,
the resolved slideshow list has exactly 3 entries. -/
theorem slideshow_probe_chain_witness :
    (loadSlideshowImages availExample).length = 3 :=
  (slideshow_probe_chain availExample).2.2.2.2 rfl rfl rfl rfl

/-! ## Orb media resolution (createOrb, lines 914-961) -/

inductive MediaOutcome where
  | playingVideo
  | slideshow (images : List ℕ)
  | fallback
deriving DecidableEq

/-- Media resolution wiring of `createOrb` (lines 914-961): `videoPath` is
non-null exactly when a content folder is configured (line 580); a video
that fires `loadeddata` wins; a video `error` event probes the slideshow
images instead; a nonempty image list takes the slideshow path; otherwise
the fallback vignette is drawn.  Every failure resolves locally — the
function is total, so no media-loading failure escapes as an exception. -/
def resolveOrbMedia (hasFolder videoLoads : Bool) (avail : ℕ → Bool) :
    MediaOutcome :=
  if hasFolder then
    if videoLoads then .playingVideo
    else if (loadSlideshowImages avail).length > 0 then
      .slideshow (loadSlideshowImages avail)
    else .fallback
  else .fallback

/-- C4: the ordered media fallback chain — video first; on video error the
slideshow images are probed; at least one image yields the slideshow path;
the fallback vignette is drawn exactly when no media resolves at all. -/
theorem media_fallback_chain (hasFolder videoLoads : Bool) (avail : ℕ → Bool) :
    (hasFolder = true → videoLoads = true →
      resolveOrbMedia hasFolder videoLoads avail = .playingVideo) ∧
    (hasFolder = true → videoLoads = false →
      0 < (loadSlideshowImages avail).length →
      resolveOrbMedia hasFolder videoLoads avail =
        .slideshow (loadSlideshowImages avail)) ∧
    (resolveOrbMedia hasFolder videoLoads avail = .fallback ↔
      (hasFolder = false ∨
        (videoLoads = false ∧ (loadSlideshowImages avail).length = 0))) := by
  rcases hasFolder <;> rcases videoLoads <;>
    by_cases hl : (loadSlideshowImages avail).length = 0 <;>
      simp [resolveOrbMedia, hl, Nat.pos_iff_ne_zero]

/-- Witness for `media_fallback_chain`: a folder with images at 1-3 and a
broken video resolves to the slideshow, not the fallback. -/
theorem media_fallback_chain_witness :
    resolveOrbMedia true false availExample =
      .slideshow (loadSlideshowImages availExample) :=
  (media_fallback_chain true false availExample).2.1 rfl rfl (by decide)

/-! ## Orb color selection (createMemoryOrbs, lines 542-576) -/

structure ColorData where
  hex : ℕ
  red : ℕ
  green : ℕ
  blue : ℕ
deriving DecidableEq

/-- The single amber entry of the orb color table (lines 543-545). -/
def amberColor : ColorData := ⟨0xF79C00, 247, 156, 0⟩

def colors : List ColorData := [amberColor]

/-- One execution of the do-while body (line 571):
`colorIndex = Math.floor(Math.random() * colors.length)`. -/
def pickIndexOnce (rand : ℚ) : ℤ := ⌊rand * (colors.length : ℚ)⌋

/-- The do-while guard (line 572):
`colorIndex === lastColorIndex && colors.length > 1`. -/
def repickGuard (colorIndex lastColorIndex : ℤ) : Bool :=
  (colorIndex == lastColorIndex) && decide (1 < colors.length)

/-- The 27 content keys assigned to the orbs in order (lines 555-561). -/
def cardKeys : List String :=
  ["overview", "gallery", "technologies", "details", "links", "contact",
   "placeholder1", "placeholder2", "placeholder3", "placeholder4",
   "placeholder5", "placeholder6", "placeholder7", "placeholder8",
   "placeholder9", "placeholder10", "placeholder11", "placeholder12",
   "placeholder13", "placeholder14", "placeholder15", "placeholder16",
   "placeholder17", "placeholder18", "placeholder19", "placeholder20",
   "placeholder21"]

/-- C10: for any `Math.random()` value in [0,1) and any previous color
index, the do-while body picks index 0, its guard is false (so it runs
exactly once), and the selected color is the fixed amber entry — all 27
orbs share the same deterministic color. -/
theorem orb_color_deterministic (rand : ℚ) (lastColorIndex : ℤ)
    (h0 : 0 ≤ rand) (h1 : rand < 1) :
    pickIndexOnce rand = 0 ∧
    repickGuard (pickIndexOnce rand) lastColorIndex = false ∧
    colors.get? (pickIndexOnce rand).toNat = some amberColor ∧
    cardKeys.length = 27 := by
  have hpick : pickIndexOnce rand = 0 := by
    rw [pickIndexOnce]
    simp only [colors, List.length_singleton, Nat.cast_one, mul_one]
    exact Int.floor_eq_zero_iff.mpr ⟨h0, h1⟩
  refine ⟨hpick, ?_, ?_, rfl⟩
  · simp [repickGuard, colors]
  · rw [hpick]
    rfl

/-- Witness for `orb_color_deterministic` at `Math.random() = 1/2` with
last color index -1. -/
theorem orb_color_deterministic_witness :
    pickIndexOnce (1/2) = 0 ∧
    repickGuard (pickIndexOnce (1/2)) (-1) = false :=
  ⟨(orb_color_deterministic (1/2) (-1) (by norm_num) (by norm_num)).1,
   (orb_color_deterministic (1/2) (-1) (by norm_num) (by norm_num)).2.1⟩

/-! ## Crossfade timer discipline (startSlideshow, lines 714-877)

The slideshow interval body and the crossfade completion are modelled as
events over a timer state: `live` holds the ids of currently scheduled
crossfade intervals (`setInterval` adds a fresh id, `clearInterval`
removes one, and the callback of a cleared interval never fires again),
`recorded` is `orbData.crossfadeInterval`. -/

structure CrossfadeSys where
  live : List ℕ
  recorded : Option ℕ
  nextId : ℕ
deriving DecidableEq

inductive CrossfadeEvent where
  /-- The 3-second slideshow tick (lines 716-871): it first clears the
  recorded in-flight crossfade interval if any (lines 718-721), then
  creates a new crossfade interval (line 737) and records it (line 869). -/
  | slideshowTick
  /-- A crossfade callback reaching `progress >= 1` (lines 740-745): it
  clears its own interval and nulls the recorded handle. -/
  | crossfadeFinish (id : ℕ)
deriving DecidableEq

def stepCrossfade (s : CrossfadeSys) : CrossfadeEvent → CrossfadeSys
  | .slideshowTick =>
      let live1 := match s.recorded with
        | some c => s.live.filter (· ≠ c)
        | none => s.live
      { live := live1 ++ [s.nextId], recorded := some s.nextId,
        nextId := s.nextId + 1 }
  | .crossfadeFinish id =>
      if id ∈ s.live then
        { s with live := s.live.filter (· ≠ id), recorded := none }
      else s

def initCrossfade : CrossfadeSys := ⟨[], none, 0⟩

def runCrossfade (evs : List CrossfadeEvent) : CrossfadeSys :=
  evs.foldl stepCrossfade initCrossfade

/-- The invariant: every live crossfade interval is the recorded one. -/
def crossfadeInv (s : CrossfadeSys) : Prop :=
  s.live.length ≤ 1 ∧ ∀ c ∈ s.live, s.recorded = some c

lemma stepCrossfade_inv (s : CrossfadeSys) (e : CrossfadeEvent)
    (h : crossfadeInv s) : crossfadeInv (stepCrossfade s e) := by
  obtain ⟨hlen, hrec⟩ := h
  cases e with
  | slideshowTick =>
      rcases hr : s.recorded with _ | c
      · have hl : s.live = [] := by
          cases hl : s.live with
          | nil => rfl
          | cons a t =>
              have h1 := hrec a (by simp [hl])
              rw [hr] at h1
              cases h1
        refine ⟨?_, ?_⟩ <;> simp [stepCrossfade, hr, hl, crossfadeInv]
      · have hfil : s.live.filter (· ≠ c) = [] := by
          rw [List.filter_eq_nil_iff]
          intro a ha
          have h1 := hrec a ha
          rw [hr] at h1
          injection h1 with h1
          simp [h1]
        refine ⟨?_, ?_⟩
        · simp only [stepCrossfade, hr]
          rw [hfil]
          simp
        · intro d hd
          simp only [stepCrossfade, hr] at hd ⊢
          rw [hfil] at hd
          simp only [List.nil_append, List.mem_singleton] at hd
          simp [hd]
  | crossfadeFinish id =>
      by_cases hm : id ∈ s.live
      · constructor
        · simp only [stepCrossfade, if_pos hm]
          calc (s.live.filter (· ≠ id)).length ≤ s.live.length :=
                List.length_filter_le _ _
            _ ≤ 1 := hlen
        · intro c hc
          simp only [stepCrossfade, if_pos hm, List.mem_filter,
            decide_eq_true_eq] at hc
          obtain ⟨hcl, hcne⟩ := hc
          have h1 := hrec c hcl
          have h2 := hrec id hm
          rw [h1] at h2
          injection h2 with he
          exact absurd he (by simpa using hcne)
      · simpa [stepCrossfade, if_neg hm] using ⟨hlen, hrec⟩

/-- C9: after any sequence of slideshow ticks and crossfade completions,
at most one crossfade interval is live, and any live one is exactly the
recorded `orbData.crossfadeInterval` — no two concurrent crossfades ever
redraw the same orb canvas. -/
theorem at_most_one_crossfade (evs : List CrossfadeEvent) :
    (runCrossfade evs).live.length ≤ 1 ∧
    ∀ c ∈ (runCrossfade evs).live, (runCrossfade evs).recorded = some c := by
  have h : ∀ (l : List CrossfadeEvent) (s : CrossfadeSys), crossfadeInv s →
      crossfadeInv (l.foldl stepCrossfade s) := by
    intro l
    induction l with
    | nil => intro s hs; exact hs
    | cons e t ih =>
        intro s hs
        exact ih _ (stepCrossfade_inv s e hs)
  exact h evs initCrossfade ⟨by simp [initCrossfade], by simp [initCrossfade]⟩

/-- Witness for `at_most_one_crossfade`: after two consecutive ticks the
single live crossfade is the second one created, and it is the recorded
handle. -/
theorem at_most_one_crossfade_witness :
    (runCrossfade [.slideshowTick, .slideshowTick]).recorded = some 1 :=
  (at_most_one_crossfade [.slideshowTick, .slideshowTick]).2 1 (by decide)

/-! ## Teardown paths (cleanupSceneContent lines 2343-2415; dispose lines
4161-4206) -/

/-- Per-orb timer handles held in an orb record (lines 1066-1080 plus the
`slideshowInterval` / `crossfadeInterval` fields attached on lines 874-876
and 868-870). -/
structure OrbTimers where
  slideshowInterval : Option ℕ
  crossfadeInterval : Option ℕ
deriving DecidableEq

/-- Interval ids cancelled per orb by the rebuild-time cleanup
(`cleanupSceneContent`, lines 2361-2371): both the slideshow interval and
any active crossfade interval are cleared. -/
def cleanupSceneContentCancels (o : OrbTimers) : List ℕ :=
  o.slideshowInterval.toList ++ o.crossfadeInterval.toList

/-- Interval ids cancelled per orb by full disposal (`dispose`, lines
4161-4206): the orb loop pauses the video and disposes GPU resources but
contains no `clearInterval` call at all. -/
def disposeCancels (_ : OrbTimers) : List ℕ := []

/-- Live timers that remain referencing the orb after a teardown path. -/
def liveAfter (liveTimers cancelled : List ℕ) : List ℕ :=
  liveTimers.filter (fun t => ¬ t ∈ cancelled)

/-- C2 (code bug evidence): for an orb with a live slideshow interval (id
5) and a live crossfade interval (id 7), the rebuild-time cleanup cancels
both, but `dispose` cancels neither — after full disposal both timers
still reference the torn-down orb, contradicting the claim that every
teardown path cancels every per-orb timer. -/
theorem dispose_leaves_orb_timers_live :
    liveAfter [5, 7] (cleanupSceneContentCancels ⟨some 5, some 7⟩) = [] ∧
    liveAfter [5, 7] (disposeCancels ⟨some 5, some 7⟩) = [5, 7] ∧
    ([5, 7] : List ℕ) ≠ [] := by
  decide

/-! ## Orb canvas draw variants (C3)

Each variant is modelled as the ordered list of compositing layers it
paints onto the 512x512 orb canvas, transcribed from its draw calls.
Gradient stops are `(offset, alpha)` pairs expressed in percent
(`transparent = 0`, fully opaque = 100). -/

inductive CanvasLayer where
  /-- The media source drawn inside the circular clip at full alpha. -/
  | croppedSource
  /-- Two media sources drawn inside the circular clip at complementary
  eased alphas (the crossfade). -/
  | croppedSourceBlend
  /-- Flat `rgba(r, g, b, alpha)` fill over the clipped circle, alpha in
  percent. -/
  | colorTint (red green blue alphaPct : ℕ)
  /-- Radial gradient fill from the center with the given percent stops. -/
  | vignette (stops : List (ℕ × ℕ))
  /-- Radial white highlight centered at the given point and radius. -/
  | highlight (cx cy radius : ℕ)
  /-- Stroked inner circle of the given radius and line width. -/
  | innerRing (radius lineWidth : ℕ)
deriving DecidableEq

/-- Vignette stops used by the media draw paths (lines 648-654, 820-826,
3988-3994): offsets 0, 0.4, 0.6, 0.75, 0.88, 1 with alphas 0, 0, 0.25,
0.6, 0.9, 1, in percent. -/
def mediaVignetteStops : List (ℕ × ℕ) :=
  [(0, 0), (40, 0), (60, 25), (75, 60), (88, 90), (100, 100)]

/-- Vignette stops used by the fallback orb (lines 971-977): offsets 0,
0.2, 0.4, 0.5, 0.6, 0.7 with alphas 0, 0, 0.4, 0.6, 0.8, 1, in percent. -/
def fallbackVignetteStops : List (ℕ × ℕ) :=
  [(0, 0), (20, 0), (40, 40), (50, 60), (60, 80), (70, 100)]

/-- Layer stack of `drawMediaToCanvas` (lines 602-695), used for the
initial video frame
and for each static slideshow frame: circular-cropped source, flat color
tint at alpha 0.35, vignette, glass highlight, inner ring stroke of
radius 251 and width 10. -/
def drawMediaToCanvasLayers : List CanvasLayer :=
  [.croppedSource, .colorTint 247 156 0 35, .vignette mediaVignetteStops,
   .highlight 154 154 180, .innerRing 251 10]

/-- A crossfade blend step (lines 737-865): both images cropped and
alpha-blended, then the same overlay stack as `drawMediaToCanvas`. -/
def crossfadeFrameLayers : List CanvasLayer :=
  [.croppedSourceBlend, .colorTint 247 156 0 35,
   .vignette mediaVignetteStops, .highlight 154 154 180, .innerRing 251 10]

/-- The per-frame video redraw in `animate` (lines 3972-4011): cropped
video frame, flat tint, vignette, highlight — and no inner ring stroke. -/
def animateVideoFrameLayers : List CanvasLayer :=
  [.croppedSource, .colorTint 247 156 0 35, .vignette mediaVignetteStops,
   .highlight 154 154 180]

/-- Layer stack of `drawFallbackOrb` (lines 963-988): no source is drawn;
only a
(differently-stopped) vignette and the highlight inside the circular
clip — no flat tint and no inner ring. -/
def fallbackOrbLayers : List CanvasLayer :=
  [.vignette fallbackVignetteStops, .highlight 154 154 180]

def layerIsTint : CanvasLayer → Bool
  | .colorTint _ _ _ _ => true
  | _ => false

def layerIsRing : CanvasLayer → Bool
  | .innerRing _ _ => true
  | _ => false

/-- C3 counterexample: the four draw variants do not apply the same
compositing sequence — the static/crossfade media draws include the inner
ring stroke but the per-frame video redraw does not, and the fallback
omits both the flat color tint and the ring. -/
theorem orb_draw_variants_differ :
    drawMediaToCanvasLayers.any layerIsRing = true ∧
    animateVideoFrameLayers.any layerIsRing = false ∧
    drawMediaToCanvasLayers.any layerIsTint = true ∧
    fallbackOrbLayers.any layerIsTint = false ∧
    animateVideoFrameLayers ≠ drawMediaToCanvasLayers := by
  decide

/-- C3 (amended): the initial-video/static-slideshow draw and the
crossfade frame share the identical overlay stack (tint at 0.35, the same
vignette stops, the highlight, ring 251/10) after their source layer; the
per-frame video redraw applies exactly that stack minus the final inner
ring; the fallback draws no source and only the vignette (with its own
wider stops) plus the highlight. -/
theorem orb_draw_variants_characterization :
    drawMediaToCanvasLayers.drop 1 = crossfadeFrameLayers.drop 1 ∧
    animateVideoFrameLayers = drawMediaToCanvasLayers.take 4 ∧
    fallbackOrbLayers =
      [.vignette fallbackVignetteStops, .highlight 154 154 180] ∧
    mediaVignetteStops ≠ fallbackVignetteStops := by
  decide

end MemoryHall
